import Mathlib

/-!
Verification of the ATHYG deserialiser (`src/ATHYG.hpp`, `struct ATHYG` in
namespace `LouiEriksson`) against its design document.

The embedding below translates the source, function by function:

* `Split`       embeds `ATHYG::Split(_string, _divider, _capacity)`; the
  `_capacity` argument only pre-reserves the result vector and has no
  semantic effect, so it is dropped.
* `strtoul10` / `strtodP` embed the C library conversions `std::strtoul`
  (base 10) and `std::strtod` that `ATHYG::TryParse<T>` delegates to, as
  prefix parsers returning the converted value together with the number of
  characters consumed (`0` when the C functions would set `*endptr = nptr`,
  i.e. when no conversion is performed).  Decimal values are kept exact in
  `ℚ`; IEEE-754 rounding to `double` and `ERANGE` clamping of huge decimal
  literals are not modelled (no claim depends on a rounded value).  The C++
  code hands `std::string_view::data()` to these functions, so they scan the
  underlying line buffer; because every token is delimited by `','` or by the
  end of the line, and `','` terminates every strtoul/strtod lexeme, this is
  equivalent to the per-token model used here.
* `TryParseNat`, `TryParseDouble`, `TryParseChar`, `TryParseBool`,
  `TryParseString` embed the branches of `ATHYG::TryParse<T>` for the types
  the records use (`size_t` = 64-bit `unsigned long`, `double`, character
  types, `bool`, `std::string`): the result is `none` exactly when the end
  pointer equals the start of the token.
* `V1`, `V2`, `V3` and their `ofValues` constructors embed the three record
  structs and their `std::array` constructors (text fields are initialised
  directly from the token, numeric fields through `TryParse`).
* `getLines` embeds the `std::getline` loop over the file contents.
* `Load` embeds `ATHYG::Load<T>`, with the filesystem collaborator modelled
  as an association list `FS`: a missing entry is a non-existent path
  (`exists(path)` false), an entry `none` is a path that exists but for which
  `fstream::open` fails (in which case `ReadAllText` returns an empty
  stream), and `some c` is a readable file with contents `c`.
-/

namespace ATHYG

/-- Tokens, lines and file contents are modelled as lists of characters. -/
abbrev Str := List Char

/-- Conversion of string literals, for concrete inputs. -/
def strL (s : String) : Str := s.toList

/-- Embeds `ATHYG::Split`: scan for each occurrence of the divider, emit the
substring before it, and finally emit the remaining (undelimited) last word. -/
def Split : Str → Char → List Str
  | [], _ => [[]]
  | c :: rest, d =>
    if c = d then [] :: Split rest d
    else
      match Split rest d with
      | t :: ts => (c :: t) :: ts
      | [] => [[c]]

/-- Number of occurrences of a character in a string (spec-side notion used to
state the tokenizer claim). -/
def countOcc (d : Char) : Str → Nat
  | [] => 0
  | c :: rest => (if c = d then 1 else 0) + countOcc d rest

/-- Re-joins tokens with the divider between them (spec-side inverse used to
state that every divider occurrence is a boundary). -/
def joinWith (d : Char) : List Str → Str
  | [] => []
  | [t] => t
  | t :: u :: ts => t ++ d :: joinWith d (u :: ts)

/-- Whitespace skipped by the C `strto*` conversions in the `"C"` locale. -/
def isSpaceChar (c : Char) : Bool :=
  c = ' ' || c = '\t' || c = '\n' || c = '\x0b' || c = '\x0c' || c = '\r'

/-- Value of a base-10 digit string. -/
def natOfDigits (ds : Str) : Nat :=
  ds.foldl (fun a c => a * 10 + (c.toNat - 48)) 0

/-- `ULONG_MAX` for the 64-bit `unsigned long` that `size_t` is on the
target platform. -/
def ULONG_MAX : Nat := 2 ^ 64 - 1

/-- Optional sign at the start of a `strto*` subject sequence: whether a minus
sign was seen, how many characters the sign occupies, and the rest. -/
def parseSign : Str → Bool × Nat × Str
  | [] => (false, 0, [])
  | c :: r =>
    if c = '-' then (true, 1, r)
    else if c = '+' then (false, 1, r)
    else (false, 0, c :: r)

/-- Embeds `std::strtoul(p, &e, 10)`: returns the converted `unsigned long`
value and the number of characters consumed (`0` when no conversion is
performed, in which case C sets `*endptr = nptr`).  Whitespace is skipped, an
optional sign is honoured (a minus sign negates in unsigned arithmetic), and a
digit-sequence value above `ULONG_MAX` is clamped to `ULONG_MAX` (`ERANGE`). -/
def strtoul10 (s : Str) : Nat × Nat :=
  let wsLen := (s.takeWhile isSpaceChar).length
  let sg := parseSign (s.dropWhile isSpaceChar)
  let ds := sg.2.2.takeWhile Char.isDigit
  if ds.isEmpty then (0, 0)
  else
    let m := natOfDigits ds
    let v :=
      if ULONG_MAX < m then ULONG_MAX
      else if sg.1 then (2 ^ 64 - m) % 2 ^ 64 else m
    (v, wsLen + sg.2.1 + ds.length)

/-- Embeds `ATHYG::TryParse<size_t>`: `none` exactly when `strtoul` consumed
no characters. -/
def TryParseNat (s : Str) : Option Nat :=
  let r := strtoul10 s
  if r.2 = 0 then none else some r.1

/-- Value produced by `std::strtod`, kept exact: a finite rational, a signed
infinity, or NaN. -/
inductive FloatVal where
  | finite : ℚ → FloatVal
  | inf : Bool → FloatVal
  | nan : FloatVal
  deriving DecidableEq

/-- Integer power with possibly negative exponent, over `ℚ`. -/
def qpow (b : ℚ) (e : Int) : ℚ :=
  if 0 ≤ e then b ^ e.toNat else (b ^ (-e).toNat)⁻¹

/-- Hexadecimal digit test (for `strtod` hex floats). -/
def isHexDigitC (c : Char) : Bool :=
  c.isDigit || ('a' ≤ c && c ≤ 'f') || ('A' ≤ c && c ≤ 'F')

/-- Value of a hexadecimal digit. -/
def hexVal (c : Char) : Nat :=
  if c.isDigit then c.toNat - 48
  else if 'a' ≤ c then c.toNat - 87
  else c.toNat - 55

/-- Value of a base-16 digit string. -/
def natOfHexDigits (ds : Str) : Nat :=
  ds.foldl (fun a c => a * 16 + hexVal c) 0

/-- Case-insensitive prefix test (for `strtod`'s `inf` / `infinity` / `nan`). -/
def startsWithCI : Str → Str → Bool
  | [], _ => true
  | _ :: _, [] => false
  | p :: ps, c :: cs => (p.toLower == c.toLower) && startsWithCI ps cs

/-- Characters allowed in the parenthesised n-char-sequence after `nan`. -/
def isNanChar (c : Char) : Bool := c.isAlphanum || c = '_'

/-- Number of characters of an optional `(n-char-seq)` after `nan` (`0` when
the parenthesised sequence is absent or unterminated). -/
def nanSeq (t : Str) : Nat :=
  match t with
  | c :: r =>
    if c = '(' then
      let body := r.takeWhile isNanChar
      match r.drop body.length with
      | d :: _ => if d = ')' then 2 + body.length else 0
      | [] => 0
    else 0
  | [] => 0

/-- Signed digit sequence of an exponent part: its value and character count
(`0` count when there is no digit, in which case the exponent is rejected). -/
def expDigits (t : Str) : Int × Nat :=
  let sg := parseSign t
  let eds := sg.2.2.takeWhile Char.isDigit
  if eds.isEmpty then (0, 0)
  else
    ((if sg.1 then -(natOfDigits eds : Int) else (natOfDigits eds : Int)),
      sg.2.1 + eds.length)

/-- Optional exponent part introduced by one of two marker characters
(`e`/`E` for decimal, `p`/`P` for hex): exponent value and characters
consumed (`0` when the marker or its digits are missing). -/
def expPart (c1 c2 : Char) (t : Str) : Int × Nat :=
  match t with
  | c :: r =>
    if c = c1 ∨ c = c2 then
      let ed := expDigits r
      if ed.2 = 0 then (0, 0) else (ed.1, 1 + ed.2)
    else (0, 0)
  | [] => (0, 0)

/-- Optional fraction part `.digits` (also accepts a bare trailing period, as
`strtod` does): fraction digits and characters consumed including the dot. -/
def fracPart (p : Char → Bool) (t : Str) : Str × Nat :=
  match t with
  | c :: r =>
    if c = '.' then (r.takeWhile p, 1 + (r.takeWhile p).length) else ([], 0)
  | [] => ([], 0)

/-- Decimal significand `digits[.digits]` of `strtod`: exact value and
characters consumed; `none` when it contains no digit at all. -/
def decSignificand (t : Str) : Option (ℚ × Nat) :=
  let ip := t.takeWhile Char.isDigit
  let fr := fracPart Char.isDigit (t.drop ip.length)
  if ip.isEmpty && fr.1.isEmpty then none
  else
    some ((natOfDigits ip : ℚ) + (natOfDigits fr.1 : ℚ) / (10 : ℚ) ^ fr.1.length,
      ip.length + fr.2)

/-- Hexadecimal significand `hexdigits[.hexdigits]` after `0x`: exact value
and characters consumed; `none` when it contains no hex digit at all. -/
def hexSignificand (t : Str) : Option (ℚ × Nat) :=
  let ip := t.takeWhile isHexDigitC
  let fr := fracPart isHexDigitC (t.drop ip.length)
  if ip.isEmpty && fr.1.isEmpty then none
  else
    some ((natOfHexDigits ip : ℚ) + (natOfHexDigits fr.1 : ℚ) / (16 : ℚ) ^ fr.1.length,
      ip.length + fr.2)

/-- Whether the subject sequence starts like a hex float (`0x`/`0X`). -/
def hexPrefix (t : Str) : Bool :=
  match t with
  | c :: d :: _ => decide (c = '0' ∧ (d = 'x' ∨ d = 'X'))
  | _ => false

/-- Embeds `std::strtod`: value and number of characters consumed (`0` when no
conversion is performed).  Handles whitespace, sign, `inf`/`infinity`,
`nan[(n-char-seq)]`, hex floats with optional binary exponent, and decimal
forms with optional fraction and exponent, matching the longest valid
prefix. -/
def strtodP (s : Str) : FloatVal × Nat :=
  let wsLen := (s.takeWhile isSpaceChar).length
  let sg := parseSign (s.dropWhile isSpaceChar)
  let pre := wsLen + sg.2.1
  let t2 := sg.2.2
  if startsWithCI (strL "infinity") t2 then (.inf sg.1, pre + 8)
  else if startsWithCI (strL "inf") t2 then (.inf sg.1, pre + 3)
  else if startsWithCI (strL "nan") t2 then (.nan, pre + 3 + nanSeq (t2.drop 3))
  else if hexPrefix t2 then
    match hexSignificand (t2.drop 2) with
    | some mc =>
      let pe := expPart 'p' 'P' (t2.drop (2 + mc.2))
      (.finite ((if sg.1 then (-1 : ℚ) else 1) * mc.1 * qpow 2 pe.1),
        pre + 2 + mc.2 + pe.2)
    | none => (.finite 0, pre + 1)
  else
    match decSignificand t2 with
    | some mc =>
      let ee := expPart 'e' 'E' (t2.drop mc.2)
      (.finite ((if sg.1 then (-1 : ℚ) else 1) * mc.1 * qpow 10 ee.1),
        pre + mc.2 + ee.2)
    | none => (.finite 0, 0)

/-- Embeds `ATHYG::TryParse<double>`: `none` exactly when `strtod` consumed no
characters. -/
def TryParseDouble (s : Str) : Option FloatVal :=
  let r := strtodP s
  if r.2 = 0 then none else some r.1

/-- Embeds the character branch of `ATHYG::TryParse`: the first character when
the token is non-empty, `none` otherwise (the code then sets `e` back to the
token start). -/
def TryParseChar (s : Str) : Option Char :=
  match s with
  | [] => none
  | c :: _ => some c

/-- Embeds the `bool` branch of `ATHYG::TryParse`: `e` is never moved to the
token start, so the result is always present; the value is the literal
comparison performed by the source. -/
def TryParseBool (s : Str) : Option Bool :=
  some (decide (s = strL "true" ∨ s = strL "True" ∨ s = strL "TRUE" ∨
    s = strL "T" ∨ s = strL "1"))

/-- Embeds the `std::string` specialisation of `ATHYG::TryParse`: the token
itself, always present. -/
def TryParseString (s : Str) : Option Str := some s

/-- Embeds `ATHYG::V1` (23 columns). -/
structure V1 where
  id : Option Nat
  tyc : Option Str
  gaia : Option Nat
  hyg : Option Nat
  hip : Option Nat
  hd : Option Nat
  hr : Option Nat
  gl : Option Str
  bayer : Option Str
  flam : Option Str
  con : Option Str
  proper : Option Str
  ra : Option FloatVal
  dec : Option FloatVal
  pos_src : Option Str
  dist : Option FloatVal
  x0 : Option FloatVal
  y0 : Option FloatVal
  z0 : Option FloatVal
  dist_src : Option Str
  mag : Option FloatVal
  absmag : Option FloatVal
  mag_src : Option Str

/-- Embeds the `ATHYG::V1` constructor from a 23-element token array: numeric
fields go through `TryParse`, text fields are initialised directly from the
token (hence always present). -/
def V1.ofValues (vs : List Str) : V1 :=
  { id := TryParseNat (vs.getD 0 []),
    tyc := some (vs.getD 1 []),
    gaia := TryParseNat (vs.getD 2 []),
    hyg := TryParseNat (vs.getD 3 []),
    hip := TryParseNat (vs.getD 4 []),
    hd := TryParseNat (vs.getD 5 []),
    hr := TryParseNat (vs.getD 6 []),
    gl := some (vs.getD 7 []),
    bayer := some (vs.getD 8 []),
    flam := some (vs.getD 9 []),
    con := some (vs.getD 10 []),
    proper := some (vs.getD 11 []),
    ra := TryParseDouble (vs.getD 12 []),
    dec := TryParseDouble (vs.getD 13 []),
    pos_src := some (vs.getD 14 []),
    dist := TryParseDouble (vs.getD 15 []),
    x0 := TryParseDouble (vs.getD 16 []),
    y0 := TryParseDouble (vs.getD 17 []),
    z0 := TryParseDouble (vs.getD 18 []),
    dist_src := some (vs.getD 19 []),
    mag := TryParseDouble (vs.getD 20 []),
    absmag := TryParseDouble (vs.getD 21 []),
    mag_src := some (vs.getD 22 []) }

/-- Embeds `ATHYG::V2` (33 columns). -/
structure V2 where
  id : Option Nat
  tyc : Option Str
  gaia : Option Nat
  hyg : Option Nat
  hip : Option Nat
  hd : Option Nat
  hr : Option Nat
  gl : Option Str
  bayer : Option Str
  flam : Option Str
  con : Option Str
  proper : Option Str
  ra : Option FloatVal
  dec : Option FloatVal
  pos_src : Option Str
  dist : Option FloatVal
  x0 : Option FloatVal
  y0 : Option FloatVal
  z0 : Option FloatVal
  dist_src : Option Str
  mag : Option FloatVal
  absmag : Option FloatVal
  mag_src : Option Str
  rv : Option FloatVal
  rv_src : Option Str
  pm_ra : Option FloatVal
  pm_dec : Option FloatVal
  pm_src : Option FloatVal
  vx : Option FloatVal
  vy : Option FloatVal
  vz : Option FloatVal
  spect : Option FloatVal
  spect_src : Option Str

/-- Embeds the `ATHYG::V2` constructor from a 33-element token array. -/
def V2.ofValues (vs : List Str) : V2 :=
  { id := TryParseNat (vs.getD 0 []),
    tyc := some (vs.getD 1 []),
    gaia := TryParseNat (vs.getD 2 []),
    hyg := TryParseNat (vs.getD 3 []),
    hip := TryParseNat (vs.getD 4 []),
    hd := TryParseNat (vs.getD 5 []),
    hr := TryParseNat (vs.getD 6 []),
    gl := some (vs.getD 7 []),
    bayer := some (vs.getD 8 []),
    flam := some (vs.getD 9 []),
    con := some (vs.getD 10 []),
    proper := some (vs.getD 11 []),
    ra := TryParseDouble (vs.getD 12 []),
    dec := TryParseDouble (vs.getD 13 []),
    pos_src := some (vs.getD 14 []),
    dist := TryParseDouble (vs.getD 15 []),
    x0 := TryParseDouble (vs.getD 16 []),
    y0 := TryParseDouble (vs.getD 17 []),
    z0 := TryParseDouble (vs.getD 18 []),
    dist_src := some (vs.getD 19 []),
    mag := TryParseDouble (vs.getD 20 []),
    absmag := TryParseDouble (vs.getD 21 []),
    mag_src := some (vs.getD 22 []),
    rv := TryParseDouble (vs.getD 23 []),
    rv_src := some (vs.getD 24 []),
    pm_ra := TryParseDouble (vs.getD 25 []),
    pm_dec := TryParseDouble (vs.getD 26 []),
    pm_src := TryParseDouble (vs.getD 27 []),
    vx := TryParseDouble (vs.getD 28 []),
    vy := TryParseDouble (vs.getD 29 []),
    vz := TryParseDouble (vs.getD 30 []),
    spect := TryParseDouble (vs.getD 31 []),
    spect_src := some (vs.getD 32 []) }

/-- Embeds `ATHYG::V3` (34 columns: `V2` with `ci` inserted after `absmag`). -/
structure V3 where
  id : Option Nat
  tyc : Option Str
  gaia : Option Nat
  hyg : Option Nat
  hip : Option Nat
  hd : Option Nat
  hr : Option Nat
  gl : Option Str
  bayer : Option Str
  flam : Option Str
  con : Option Str
  proper : Option Str
  ra : Option FloatVal
  dec : Option FloatVal
  pos_src : Option Str
  dist : Option FloatVal
  x0 : Option FloatVal
  y0 : Option FloatVal
  z0 : Option FloatVal
  dist_src : Option Str
  mag : Option FloatVal
  absmag : Option FloatVal
  ci : Option FloatVal
  mag_src : Option Str
  rv : Option FloatVal
  rv_src : Option Str
  pm_ra : Option FloatVal
  pm_dec : Option FloatVal
  pm_src : Option FloatVal
  vx : Option FloatVal
  vy : Option FloatVal
  vz : Option FloatVal
  spect : Option FloatVal
  spect_src : Option Str

/-- Embeds the `ATHYG::V3` constructor from a 34-element token array. -/
def V3.ofValues (vs : List Str) : V3 :=
  { id := TryParseNat (vs.getD 0 []),
    tyc := some (vs.getD 1 []),
    gaia := TryParseNat (vs.getD 2 []),
    hyg := TryParseNat (vs.getD 3 []),
    hip := TryParseNat (vs.getD 4 []),
    hd := TryParseNat (vs.getD 5 []),
    hr := TryParseNat (vs.getD 6 []),
    gl := some (vs.getD 7 []),
    bayer := some (vs.getD 8 []),
    flam := some (vs.getD 9 []),
    con := some (vs.getD 10 []),
    proper := some (vs.getD 11 []),
    ra := TryParseDouble (vs.getD 12 []),
    dec := TryParseDouble (vs.getD 13 []),
    pos_src := some (vs.getD 14 []),
    dist := TryParseDouble (vs.getD 15 []),
    x0 := TryParseDouble (vs.getD 16 []),
    y0 := TryParseDouble (vs.getD 17 []),
    z0 := TryParseDouble (vs.getD 18 []),
    dist_src := some (vs.getD 19 []),
    mag := TryParseDouble (vs.getD 20 []),
    absmag := TryParseDouble (vs.getD 21 []),
    ci := TryParseDouble (vs.getD 22 []),
    mag_src := some (vs.getD 23 []),
    rv := TryParseDouble (vs.getD 24 []),
    rv_src := some (vs.getD 25 []),
    pm_ra := TryParseDouble (vs.getD 26 []),
    pm_dec := TryParseDouble (vs.getD 27 []),
    pm_src := TryParseDouble (vs.getD 28 []),
    vx := TryParseDouble (vs.getD 29 []),
    vy := TryParseDouble (vs.getD 30 []),
    vz := TryParseDouble (vs.getD 31 []),
    spect := TryParseDouble (vs.getD 32 []),
    spect_src := some (vs.getD 33 []) }

/-- The three schema versions `ATHYG::Load` may be instantiated at. -/
inductive Version where
  | v1
  | v2
  | v3

/-- Embeds `T::s_ElementCount` for the three versions. -/
def elementCount : Version → Nat
  | .v1 => 23
  | .v2 => 33
  | .v3 => 34

/-- The record type of each version. -/
def Record : Version → Type
  | .v1 => V1
  | .v2 => V2
  | .v3 => V3

/-- Version-indexed record construction (the `T(...)` constructor call in
`ATHYG::Load`). -/
def buildRecord : (v : Version) → List Str → Record v
  | .v1, vs => V1.ofValues vs
  | .v2, vs => V2.ofValues vs
  | .v3, vs => V3.ofValues vs

/-- The two fatal errors `ATHYG::Load` can throw: `"Path is not valid."` and
`"Number of elements not consistent with ATHYG version!"`. -/
inductive LoadError where
  | invalidPath
  | arityMismatch
  deriving DecidableEq

/-- The filesystem collaborator: an association list from path to entry.  A
missing entry is a non-existent path; `none` is a path that exists but cannot
be opened (in which case `ReadAllText` silently yields an empty stream);
`some c` is a readable file with contents `c`. -/
abbrev FS := List (String × Option Str)

/-- Lookup of a path in the filesystem model. -/
def fsLookup : FS → String → Option (Option Str)
  | [], _ => none
  | e :: rest, p => if p = e.1 then some e.2 else fsLookup rest p

/-- Embeds the `std::getline` loop over a file's contents: one line per
segment before each `'\n'`; a final segment after the last `'\n'` only when it
is non-empty; no line at all for empty contents. -/
def getLines (s : Str) : List Str :=
  let segs := Split s '\n'
  if segs.getLast? = some [] then segs.dropLast else segs

/-- Token sequence of one data line after the discard step of `ATHYG::Load`:
split on `','`, then `resize` down to the element count when there are more
tokens than that. -/
def truncTokens (n : Nat) (line : Str) : List Str :=
  let elements := Split line ','
  if n < elements.length then elements.take n else elements

/-- Processing of one data line by `ATHYG::Load`: truncate, then either build
a record (when the arity matches) or throw the arity-mismatch error. -/
def buildLine (v : Version) (line : Str) : Except LoadError (Record v) :=
  let es := truncTokens (elementCount v) line
  if es.length = elementCount v then .ok (buildRecord v es)
  else .error .arityMismatch

/-- Processing of the data lines of one file, in order; the first failing line
aborts with its error. -/
def buildLines (v : Version) : List Str → Except LoadError (List (Record v))
  | [] => .ok []
  | l :: ls =>
    match buildLine v l with
    | .error e => .error e
    | .ok r =>
      match buildLines v ls with
      | .error e => .error e
      | .ok rs => .ok (r :: rs)

/-- Records contributed by one file: every line after the discarded header. -/
def loadFile (v : Version) (content : Str) : Except LoadError (List (Record v)) :=
  buildLines v ((getLines content).drop 1)

/-- Embeds `ATHYG::Load<T>`: for each path in order, check existence (throwing
the invalid-path error otherwise), read the contents (empty when the file
cannot be opened), process its data lines, and append the records to the
merged result; any thrown error aborts the whole call with no records. -/
def Load (v : Version) (fs : FS) : List String → Except LoadError (List (Record v))
  | [] => .ok []
  | p :: ps =>
    match fsLookup fs p with
    | none => .error .invalidPath
    | some oc =>
      match loadFile v (oc.getD []) with
      | .error e => .error e
      | .ok rs =>
        match Load v fs ps with
        | .error e => .error e
        | .ok rest => .ok (rs ++ rest)

/-- Spec-side: a data line is well-formed for arity `n` when its token count
after truncation equals `n`. -/
def lineOkB (n : Nat) (line : Str) : Bool :=
  (truncTokens n line).length == n

/-- Spec-side: all data lines of a file are well-formed for arity `n`. -/
def fileOkB (n : Nat) (content : Str) : Bool :=
  ((getLines content).drop 1).all (lineOkB n)

/-- Spec-side: the path names an existing, openable file. -/
def readableB (fs : FS) (p : String) : Bool :=
  match fsLookup fs p with
  | some (some _) => true
  | _ => false

/-- Spec-side: contents of the file at a path (empty when absent). -/
def contentOf (fs : FS) (p : String) : Str :=
  match fsLookup fs p with
  | some (some c) => c
  | _ => []

/-- Spec-side: a well-formed input for a version — every path readable and
every data line of every file of the expected arity. -/
def inputOkB (v : Version) (fs : FS) (paths : List String) : Bool :=
  paths.all fun p => readableB fs p && fileOkB (elementCount v) (contentOf fs p)

/-- Spec-side: the records a single well-formed file contributes, one per data
line, in line order. -/
def fileRecords (v : Version) (content : Str) : List (Record v) :=
  ((getLines content).drop 1).map fun l => buildRecord v (truncTokens (elementCount v) l)

/-- Spec-side: number of data lines (lines after the header) of a file. -/
def numDataLines (content : Str) : Nat :=
  ((getLines content).drop 1).length

/-- Spec-side: the token has a non-empty digit sequence after optional
whitespace and an optional sign — the exact condition under which `strtoul`
performs a conversion. -/
def natPrefixOk (s : Str) : Bool :=
  match (parseSign (s.dropWhile isSpaceChar)).2.2 with
  | c :: _ => c.isDigit
  | [] => false


/-- Concrete two-file filesystem used to witness the loader claims: file `a`
has one well-formed 23-column data line, file `b` has one all-empty 23-token
data line (22 commas) and no trailing newline. -/
def sampleFS : FS :=
  [("a", some (strL "h\n1,t,2,3,4,5,6,g,b,f,c,p,1.5,2.5,s,3.5,1,2,3,d,4,5,m\n")),
   ("b", some (strL "h\n,,,,,,,,,,,,,,,,,,,,,,"))]

/-- Concrete filesystem whose single file has a data line with too few
tokens for any version. -/
def badFS : FS := [("f", some (strL "h\na,b"))]

/-- Concrete filesystem whose single file consists of a header line only. -/
def headerFS : FS := [("e", some (strL "id,x"))]

theorem Split_ne_nil (s : Str) (d : Char) : Split s d ≠ [] := by
  cases s with
  | nil => simp [Split]
  | cons c rest =>
    simp only [Split]
    split
    · simp
    · split <;> simp

theorem length_Split (s : Str) (d : Char) :
    (Split s d).length = countOcc d s + 1 := by
  induction s with
  | nil => rfl
  | cons c rest ih =>
    by_cases hc : c = d
    · simp only [Split, countOcc, if_pos hc, List.length_cons]
      omega
    · obtain ⟨t, ts, hts⟩ := List.exists_cons_of_ne_nil (Split_ne_nil rest d)
      simp only [Split, countOcc, if_neg hc, hts, List.length_cons]
      rw [hts] at ih
      simp only [List.length_cons] at ih
      omega

theorem joinWith_Split (s : Str) (d : Char) : joinWith d (Split s d) = s := by
  induction s with
  | nil => rfl
  | cons c rest ih =>
    obtain ⟨t, ts, hts⟩ := List.exists_cons_of_ne_nil (Split_ne_nil rest d)
    by_cases hc : c = d
    · simp only [Split, if_pos hc, hts, joinWith]
      rw [← hts, ih, hc]
      simp
    · simp only [Split, if_neg hc, hts]
      cases ts with
      | nil =>
        simp only [joinWith]
        rw [hts] at ih
        simp only [joinWith] at ih
        rw [ih]
      | cons u ts2 =>
        simp only [joinWith]
        rw [hts] at ih
        simp only [joinWith] at ih
        rw [List.cons_append, ih]

theorem not_mem_Split (s : Str) (d : Char) : ∀ t ∈ Split s d, d ∉ t := by
  induction s with
  | nil =>
    intro t ht
    simp only [Split, List.mem_singleton] at ht
    simp [ht]
  | cons c rest ih =>
    intro t ht
    by_cases hc : c = d
    · simp only [Split, if_pos hc, List.mem_cons] at ht
      rcases ht with h | h
      · simp [h]
      · exact ih t h
    · obtain ⟨t0, ts, hts⟩ := List.exists_cons_of_ne_nil (Split_ne_nil rest d)
      simp only [Split, if_neg hc, hts, List.mem_cons] at ht
      rcases ht with h | h
      · subst h
        intro hmem
        rcases List.mem_cons.mp hmem with h | h
        · exact hc h.symm
        · exact ih t0 (hts ▸ List.mem_cons_self t0 ts) h
      · exact ih t (hts ▸ List.mem_cons_of_mem t0 h)

theorem takeWhile_all_self {p : Char → Bool} {l : Str} (h : l.all p = true) :
    l.takeWhile p = l := by
  induction l with
  | nil => rfl
  | cons c r ih =>
    simp only [List.all_cons, Bool.and_eq_true] at h
    simp [List.takeWhile_cons, h.1, ih h.2]

theorem buildLine_ok {v : Version} {line : Str}
    (h : lineOkB (elementCount v) line = true) :
    buildLine v line = .ok (buildRecord v (truncTokens (elementCount v) line)) := by
  simp only [lineOkB, beq_iff_eq] at h
  simp [buildLine, h]

theorem buildLine_err {v : Version} {line : Str}
    (h : lineOkB (elementCount v) line = false) :
    buildLine v line = .error .arityMismatch := by
  simp only [lineOkB, beq_eq_false_iff_ne, ne_eq] at h
  simp [buildLine, h]

theorem buildLines_ok {v : Version} {ls : List Str}
    (h : ls.all (lineOkB (elementCount v)) = true) :
    buildLines v ls = .ok (ls.map fun l => buildRecord v (truncTokens (elementCount v) l)) := by
  induction ls with
  | nil => rfl
  | cons l ls ih =>
    simp only [List.all_cons, Bool.and_eq_true] at h
    simp [buildLines, buildLine_ok h.1, ih h.2]

theorem buildLines_err {v : Version} {ls : List Str}
    (h : ls.all (lineOkB (elementCount v)) = false) :
    buildLines v ls = .error .arityMismatch := by
  induction ls with
  | nil => simp at h
  | cons l ls ih =>
    simp only [List.all_cons, Bool.and_eq_false_iff] at h
    rcases h with h | h
    · simp [buildLines, buildLine_err h]
    · cases hl : lineOkB (elementCount v) l with
      | false => simp [buildLines, buildLine_err hl]
      | true => simp [buildLines, buildLine_ok hl, ih h]

theorem loadFile_ok {v : Version} {c : Str}
    (h : fileOkB (elementCount v) c = true) :
    loadFile v c = .ok (fileRecords v c) := by
  simpa [loadFile, fileRecords] using buildLines_ok h

theorem loadFile_err {v : Version} {c : Str}
    (h : fileOkB (elementCount v) c = false) :
    loadFile v c = .error .arityMismatch := by
  simpa [loadFile] using buildLines_err h

theorem readableB_lookup {fs : FS} {p : String} (h : readableB fs p = true) :
    fsLookup fs p = some (some (contentOf fs p)) := by
  unfold readableB contentOf at *
  cases hl : fsLookup fs p with
  | none => simp [hl] at h
  | some oc =>
    cases oc with
    | none => simp [hl] at h
    | some c => simp [hl]

theorem Load_ok {v : Version} {fs : FS} {paths : List String}
    (h : inputOkB v fs paths = true) :
    Load v fs paths = .ok ((paths.map fun p => fileRecords v (contentOf fs p)).flatten) := by
  induction paths with
  | nil => rfl
  | cons p ps ih =>
    simp only [inputOkB, List.all_cons, Bool.and_eq_true] at h
    obtain ⟨⟨h1, h2⟩, h3⟩ := h
    simp only [Load, readableB_lookup h1, Option.getD_some, loadFile_ok h2,
      ih h3, List.map_cons, List.flatten_cons]

theorem Load_err_arity {v : Version} {fs : FS} {paths : List String}
    (hr : paths.all (readableB fs) = true)
    (hb : paths.any (fun p => !fileOkB (elementCount v) (contentOf fs p)) = true) :
    Load v fs paths = .error .arityMismatch := by
  induction paths with
  | nil => simp at hb
  | cons p ps ih =>
    simp only [List.all_cons, Bool.and_eq_true] at hr
    simp only [List.any_cons, Bool.or_eq_true] at hb
    rcases hb with hb | hb
    · have hf : fileOkB (elementCount v) (contentOf fs p) = false := by
        simpa using hb
      simp [Load, readableB_lookup hr.1, loadFile_err hf]
    · cases hf : fileOkB (elementCount v) (contentOf fs p) with
      | false => simp [Load, readableB_lookup hr.1, loadFile_err hf]
      | true => simp [Load, readableB_lookup hr.1, loadFile_ok hf, ih hr.2 hb]

/-- C1: for every schema version and well-formed input (every path readable,
every data line of the expected arity), `Load` returns exactly one record per
data line — the concatenation of each file's records in file-list order, each
file's records in line order; for a two-file input `[A, B]` the result is
`records(A) ++ records(B)`. -/
theorem C1_load_returns_all_records (v : Version) (fs : FS) (paths : List String)
    (h : inputOkB v fs paths = true) :
    Load v fs paths = .ok ((paths.map fun p => fileRecords v (contentOf fs p)).flatten) ∧
    (∀ c, (fileRecords v c).length = numDataLines c) ∧
    (∀ A B, paths = [A, B] →
      Load v fs paths = .ok (fileRecords v (contentOf fs A) ++ fileRecords v (contentOf fs B))) := by
  refine ⟨Load_ok h, fun c => by simp [fileRecords, numDataLines], ?_⟩
  rintro A B rfl
  rw [Load_ok h]
  simp

/-- C1 witness: a concrete two-file load returns the two files' records
concatenated. -/
theorem C1_witness :
    inputOkB .v1 sampleFS ["a", "b"] = true ∧
    Load .v1 sampleFS ["a", "b"] =
      .ok (fileRecords .v1 (contentOf sampleFS "a") ++ fileRecords .v1 (contentOf sampleFS "b")) :=
  ⟨by decide, (C1_load_returns_all_records .v1 sampleFS ["a", "b"] (by decide)).2.2 "a" "b" rfl⟩

/-- C2: when every path is readable but some data line of some file has,
after truncation, fewer tokens than the version's expected column count, the
whole load aborts with the arity-mismatch error and returns no records at
all. -/
theorem C2_arity_mismatch_aborts (v : Version) (fs : FS) (paths : List String)
    (hr : paths.all (readableB fs) = true)
    (hb : paths.any (fun p => !fileOkB (elementCount v) (contentOf fs p)) = true) :
    Load v fs paths = .error .arityMismatch ∧ ∀ rs, Load v fs paths ≠ .ok rs := by
  have h := Load_err_arity hr hb
  exact ⟨h, fun rs hok => by rw [h] at hok; exact Except.noConfusion hok⟩

/-- C2 witness: a single file whose data line has 2 tokens aborts a V1 load
with the arity-mismatch error. -/
theorem C2_witness :
    (["f"].all (readableB badFS) = true) ∧
    (["f"].any (fun p => !fileOkB (elementCount .v1) (contentOf badFS p)) = true) ∧
    Load .v1 badFS ["f"] = .error .arityMismatch :=
  ⟨by decide, by decide,
    (C2_arity_mismatch_aborts .v1 badFS ["f"] (by decide) (by decide)).1⟩

/-- C3 (bug evidence): a path that exists but cannot be opened does NOT abort
the load — `ReadAllText` silently yields an empty stream and the file
contributes zero records — contradicting both the claim and `ReadAllText`'s
own documentation, which says an exception is thrown when the file cannot be
opened.  A non-existent path does abort with the invalid-path error. -/
theorem C3_unopenable_is_silent :
    Load .v1 [("f", (none : Option Str))] ["f"] = .ok [] ∧
    Load .v1 [("f", (none : Option Str))] ["g"] = .error .invalidPath :=
  ⟨rfl, rfl⟩

/-- C7: a data line with strictly more tokens than the version's expected
column count is truncated to exactly that count, the extra trailing tokens are
dropped without an error, and a record is built from the first
`elementCount v` tokens. -/
theorem C7_excess_tokens_truncated (v : Version) (line : Str)
    (h : elementCount v < (Split line ',').length) :
    buildLine v line = .ok (buildRecord v ((Split line ',').take (elementCount v))) := by
  have ht : truncTokens (elementCount v) line = (Split line ',').take (elementCount v) := by
    simp [truncTokens, h]
  have hlen : ((Split line ',').take (elementCount v)).length = elementCount v := by
    rw [List.length_take]
    omega
  simp [buildLine, ht, hlen]

/-- C7 witness: a 24-token line (23 commas) builds a V1 record from its first
23 tokens. -/
theorem C7_witness :
    elementCount .v1 < (Split (strL ",,,,,,,,,,,,,,,,,,,,,,,") ',').length ∧
    buildLine .v1 (strL ",,,,,,,,,,,,,,,,,,,,,,,") =
      .ok (buildRecord .v1 ((Split (strL ",,,,,,,,,,,,,,,,,,,,,,,") ',').take (elementCount .v1))) :=
  ⟨by decide, C7_excess_tokens_truncated .v1 (strL ",,,,,,,,,,,,,,,,,,,,,,,") (by decide)⟩

/-- C9: a readable file whose contents are empty or a single header line
contributes zero records and raises no error: the load of `p :: ps` equals the
load of `ps`. -/
theorem C9_header_only_contributes_nothing (v : Version) (fs : FS) (p : String)
    (ps : List String) (c : Str)
    (h1 : fsLookup fs p = some (some c)) (h2 : (getLines c).length ≤ 1) :
    loadFile v c = .ok [] ∧ Load v fs (p :: ps) = Load v fs ps := by
  have hd : (getLines c).drop 1 = [] := by
    cases hg : getLines c with
    | nil => rfl
    | cons a l =>
      rw [hg, List.length_cons] at h2
      have hl0 : l.length = 0 := by omega
      simp [List.eq_nil_of_length_eq_zero hl0]
  have hl : loadFile v c = .ok [] := by simp [loadFile, hd, buildLines]
  refine ⟨hl, ?_⟩
  simp only [Load, h1, Option.getD_some, hl]
  cases Load v fs ps <;> simp

/-- C9 witness: a header-only file yields zero records and the load moves on. -/
theorem C9_witness :
    fsLookup headerFS "e" = some (some (strL "id,x")) ∧
    (getLines (strL "id,x")).length ≤ 1 ∧
    loadFile .v1 (strL "id,x") = .ok [] ∧
    Load .v1 headerFS ["e"] = Load .v1 headerFS [] :=
  ⟨by decide, by decide,
    (C9_header_only_contributes_nothing .v1 headerFS "e" [] (strL "id,x")
      (by decide) (by decide)).1,
    (C9_header_only_contributes_nothing .v1 headerFS "e" [] (strL "id,x")
      (by decide) (by decide)).2⟩

theorem strtoul10_consumed_iff (s : Str) :
    (strtoul10 s).2 ≠ 0 ↔ natPrefixOk s = true := by
  simp only [strtoul10, natPrefixOk]
  cases ht : (parseSign (s.dropWhile isSpaceChar)).2.2 with
  | nil => simp
  | cons c r =>
    by_cases hd : c.isDigit = true
    · simp only [List.takeWhile_cons, hd, if_true, List.isEmpty_cons, List.length_cons]
      simp [hd]
    · simp only [List.takeWhile_cons, hd]
      simp [hd]

/-- C4 (amended): integer- and decimal-kind parsing is present exactly when
the conversion consumes at least one character; the empty token is absent; a
leading numeric prefix with trailing garbage is accepted with its value
(`"42xyz"` gives 42); but because the conversion skips leading whitespace and
the decimal conversion also accepts forms led by a period, presence is
characterised by a digit appearing after optional whitespace and sign — not by
the token's first character being a digit or sign (`" 42"` and `".5"` parse as
present). -/
theorem C4_numeric_presence (s : Str) :
    ((TryParseNat s).isSome = true ↔ (strtoul10 s).2 ≠ 0) ∧
    ((TryParseNat s).isSome = true ↔ natPrefixOk s = true) ∧
    ((TryParseDouble s).isSome = true ↔ (strtodP s).2 ≠ 0) ∧
    TryParseNat [] = none ∧
    TryParseDouble [] = none ∧
    TryParseNat (strL "42xyz") = some 42 ∧
    TryParseDouble (strL "42xyz") = some (.finite 42) ∧
    TryParseNat (strL " 42") = some 42 ∧
    TryParseDouble (strL ".5") = some (.finite (1 / 2)) := by
  have hNat : (TryParseNat s).isSome = true ↔ (strtoul10 s).2 ≠ 0 := by
    simp only [TryParseNat]
    split <;> simp_all
  have hDbl : (TryParseDouble s).isSome = true ↔ (strtodP s).2 ≠ 0 := by
    simp only [TryParseDouble]
    split <;> simp_all
  have h42d : TryParseDouble (strL "42xyz") = some (.finite 42) := by
    have h : TryParseDouble (strL "42xyz") =
        some (.finite ((1 : ℚ) * (((42 : Nat) : ℚ) + ((0 : Nat) : ℚ) / (10 : ℚ) ^ (0 : Nat)) *
          qpow 10 0)) := rfl
    rw [h]
    norm_num [qpow]
  have hhalf : TryParseDouble (strL ".5") = some (.finite (1 / 2)) := by
    have h : TryParseDouble (strL ".5") =
        some (.finite ((1 : ℚ) * (((0 : Nat) : ℚ) + ((5 : Nat) : ℚ) / (10 : ℚ) ^ (1 : Nat)) *
          qpow 10 0)) := rfl
    rw [h]
    norm_num [qpow]
  exact ⟨hNat, hNat.trans (strtoul10_consumed_iff s), hDbl, by decide, by decide,
    by decide, h42d, by decide, hhalf⟩

/-- C4 counterexample: the claim that a token whose first character is not a
digit or sign yields an absent field is false on the code — `" 42"`
(leading space) parses as present 42 for the integer kind and `".5"` (leading
period) parses as present for the decimal kind, though neither first character
is a digit, `+`, or `-`. -/
theorem C4_counterexample :
    TryParseNat (strL " 42") = some 42 ∧
    (TryParseDouble (strL ".5")).isSome = true ∧
    ¬(Char.isDigit ' ' = true ∨ ' ' = '+' ∨ ' ' = '-') ∧
    ¬(Char.isDigit '.' = true ∨ '.' = '+' ∨ '.' = '-') := by
  exact ⟨by decide, by decide, by decide, by decide⟩

/-- C5: boolean-kind parsing is always present — even on the empty token —
and the value is true exactly on the five literals of the source, false on
everything else. -/
theorem C5_bool_literals (s : Str) :
    (TryParseBool s).isSome = true ∧
    (TryParseBool s = some true ↔
      (s = strL "true" ∨ s = strL "True" ∨ s = strL "TRUE" ∨ s = strL "T" ∨ s = strL "1")) ∧
    (¬(s = strL "true" ∨ s = strL "True" ∨ s = strL "TRUE" ∨ s = strL "T" ∨ s = strL "1") →
      TryParseBool s = some false) := by
  refine ⟨rfl, ?_, ?_⟩
  · simp [TryParseBool]
  · intro h
    simp [TryParseBool, h]

/-- C6: the tokenizer produces one token per delimiter-separated field with no
collapsing: the token count is the delimiter-occurrence count plus one,
re-interleaving the delimiter between the tokens reconstructs the line exactly
(so every occurrence is a boundary, adjacent delimiters yield empty tokens, a
trailing delimiter yields a trailing empty token, and the final token is
always included), and no token contains the delimiter. -/
theorem C6_split_boundaries (s : Str) (d : Char) :
    (Split s d).length = countOcc d s + 1 ∧
    joinWith d (Split s d) = s ∧
    ∀ t ∈ Split s d, d ∉ t :=
  ⟨length_Split s d, joinWith_Split s d, not_mem_Split s d⟩

/-- C8: every text-kind field of a record built by any of the three versions'
constructors is present, for every token sequence (including empty tokens). -/
theorem C8_text_fields_present (vs1 vs2 vs3 : List Str) :
    ((V1.ofValues vs1).tyc.isSome = true ∧ (V1.ofValues vs1).gl.isSome = true ∧
      (V1.ofValues vs1).bayer.isSome = true ∧ (V1.ofValues vs1).flam.isSome = true ∧
      (V1.ofValues vs1).con.isSome = true ∧ (V1.ofValues vs1).proper.isSome = true ∧
      (V1.ofValues vs1).pos_src.isSome = true ∧ (V1.ofValues vs1).dist_src.isSome = true ∧
      (V1.ofValues vs1).mag_src.isSome = true) ∧
    ((V2.ofValues vs2).tyc.isSome = true ∧ (V2.ofValues vs2).gl.isSome = true ∧
      (V2.ofValues vs2).bayer.isSome = true ∧ (V2.ofValues vs2).flam.isSome = true ∧
      (V2.ofValues vs2).con.isSome = true ∧ (V2.ofValues vs2).proper.isSome = true ∧
      (V2.ofValues vs2).pos_src.isSome = true ∧ (V2.ofValues vs2).dist_src.isSome = true ∧
      (V2.ofValues vs2).mag_src.isSome = true ∧ (V2.ofValues vs2).rv_src.isSome = true ∧
      (V2.ofValues vs2).spect_src.isSome = true) ∧
    ((V3.ofValues vs3).tyc.isSome = true ∧ (V3.ofValues vs3).gl.isSome = true ∧
      (V3.ofValues vs3).bayer.isSome = true ∧ (V3.ofValues vs3).flam.isSome = true ∧
      (V3.ofValues vs3).con.isSome = true ∧ (V3.ofValues vs3).proper.isSome = true ∧
      (V3.ofValues vs3).pos_src.isSome = true ∧ (V3.ofValues vs3).dist_src.isSome = true ∧
      (V3.ofValues vs3).mag_src.isSome = true ∧ (V3.ofValues vs3).rv_src.isSome = true ∧
      (V3.ofValues vs3).spect_src.isSome = true) :=
  ⟨⟨rfl, rfl, rfl, rfl, rfl, rfl, rfl, rfl, rfl⟩,
    ⟨rfl, rfl, rfl, rfl, rfl, rfl, rfl, rfl, rfl, rfl, rfl⟩,
    ⟨rfl, rfl, rfl, rfl, rfl, rfl, rfl, rfl, rfl, rfl, rfl⟩⟩

/-- C10 (amended): a minus sign followed by decimal digits parses as present
for the unsigned 64-bit kind; when the digit value is in range the stored
value is its negation reduced modulo 2^64 (so `"-1"` gives 2^64 - 1), but a
digit value exceeding `ULONG_MAX` clamps to `ULONG_MAX` instead of wrapping. -/
theorem C10_negative_unsigned (ds : Str) (h1 : ds ≠ [])
    (h2 : ds.all Char.isDigit = true) :
    TryParseNat ('-' :: ds) =
      some (if ULONG_MAX < natOfDigits ds then ULONG_MAX
        else (2 ^ 64 - natOfDigits ds) % 2 ^ 64) := by
  cases ds with
  | nil => exact absurd rfl h1
  | cons c r =>
    have hws : (('-' : Char) :: c :: r).takeWhile isSpaceChar = [] := by
      simp [List.takeWhile_cons, isSpaceChar]
    have hdw : (('-' : Char) :: c :: r).dropWhile isSpaceChar = '-' :: c :: r := by
      simp [List.dropWhile_cons, isSpaceChar]
    have hps : parseSign ('-' :: c :: r) = (true, 1, c :: r) := by
      simp [parseSign]
    have htw : (c :: r).takeWhile Char.isDigit = c :: r := takeWhile_all_self h2
    simp only [TryParseNat, strtoul10, hws, hdw, hps, htw, List.isEmpty_cons,
      List.length_nil, List.length_cons]
    norm_num

/-- C10 witness: `"-1"` parses as present with value 2^64 - 1. -/
theorem C10_witness :
    (strL "1" ≠ [] ∧ (strL "1").all Char.isDigit = true) ∧
    TryParseNat ('-' :: strL "1") =
      some (if ULONG_MAX < natOfDigits (strL "1") then ULONG_MAX
        else (2 ^ 64 - natOfDigits (strL "1")) % 2 ^ 64) :=
  ⟨⟨by decide, by decide⟩, C10_negative_unsigned (strL "1") (by decide) (by decide)⟩

/-- C10 counterexample: for the token `"-18446744073709551616"` (magnitude
2^64) the code clamps to 2^64 - 1, whereas negation reduced modulo 2^64 would
be 0. -/
theorem C10_counterexample :
    TryParseNat (strL "-18446744073709551616") = some (2 ^ 64 - 1) ∧
    (-(18446744073709551616 : Int)) % 2 ^ 64 = 0 ∧
    ((2 : Nat) ^ 64 - 1) ≠ 0 :=
  ⟨by decide, by decide, by decide⟩

end ATHYG


